import Mathlib

/-
Verification of the risk-scoring pipeline of `github_automated_vix_analyzer.py`
(class `GitHubVIXAnalyzer`).

Modelling conventions (shallow embedding):
* A pandas cell is a `Val`: a finite float becomes an exact rational
  (`Val.num`), the IEEE special values become `Val.pinf` / `Val.ninf` /
  `Val.nan`; object/bool columns use `Val.str` / `Val.bool`.
* A DataFrame is a `Table`: an ordered association list of named columns.
  `data['X'] = col` is `setCol` (replace in place when the name exists,
  append at the end otherwise, as pandas does).
* Comparisons follow numpy: any comparison involving NaN is `false`.
* `x.rolling(w).f()` (default `min_periods = w`) yields NaN for the first
  `w - 1` rows and for any window containing a NaN.
* The sample standard deviation (pandas `ddof = 1`) is irrational in
  general.  Where the source only *compares* against a standard deviation
  (`VIX_Spike`, `Ratio_Extreme`), we encode the comparison exactly through
  the sample variance:  for `s = sqrt v` with `v ≥ 0` we have
  `x > m + s ↔ (0 < x - m ∧ (x-m)^2 > v)` and `|x| > 2*s ↔ x^2 > 4*v`.
  Where the source *stores* a standard deviation (the realized-volatility
  columns), the stored magnitude uses the integer-square-root
  approximation `ratSqrt`; every verified claim about those columns
  depends only on their definedness (NaN or not), never on the stored
  magnitude, and the NaN-structure of `ratSqrt` is exact.
* Float literals of the source (`np.sqrt(252)`, quantile levels) are
  modelled as exact rationals.
-/

set_option maxRecDepth 100000

/-- One cell of a pandas DataFrame / Series. -/
inductive Val where
  | num (q : ℚ)
  | pinf
  | ninf
  | nan
  | str (s : String)
  | bool (b : Bool)
deriving DecidableEq, Repr

namespace Val

def isNan : Val → Bool
  | nan => true
  | _ => false

/-- IEEE addition on cells.  Operations touching `str`/`bool` cells would
raise a `TypeError` in pandas and are unreachable in the pipeline; they
fall into the catch-all. -/
def add : Val → Val → Val
  | num a, num b => num (a + b)
  | num _, pinf => pinf
  | pinf, num _ => pinf
  | num _, ninf => ninf
  | ninf, num _ => ninf
  | pinf, pinf => pinf
  | ninf, ninf => ninf
  | _, _ => nan

/-- IEEE subtraction on cells (`inf - inf = nan`). -/
def sub : Val → Val → Val
  | num a, num b => num (a - b)
  | num _, pinf => ninf
  | pinf, num _ => pinf
  | num _, ninf => pinf
  | ninf, num _ => ninf
  | pinf, ninf => pinf
  | ninf, pinf => ninf
  | _, _ => nan

/-- IEEE multiplication on cells (`0 * inf = nan`). -/
def mul : Val → Val → Val
  | num a, num b => num (a * b)
  | num a, pinf => if 0 < a then pinf else if a < 0 then ninf else nan
  | pinf, num a => if 0 < a then pinf else if a < 0 then ninf else nan
  | num a, ninf => if 0 < a then ninf else if a < 0 then pinf else nan
  | ninf, num a => if 0 < a then ninf else if a < 0 then pinf else nan
  | pinf, pinf => pinf
  | ninf, ninf => pinf
  | pinf, ninf => ninf
  | ninf, pinf => ninf
  | _, _ => nan

/-- IEEE division on cells.  numpy yields a signed infinity for a nonzero
numerator over `0.0` (positive zero) and `nan` for `0/0`. -/
def div : Val → Val → Val
  | num a, num b =>
      if b ≠ 0 then num (a / b)
      else if 0 < a then pinf else if a < 0 then ninf else nan
  | num _, pinf => num 0
  | num _, ninf => num 0
  | pinf, num b => if 0 ≤ b then pinf else ninf
  | ninf, num b => if 0 ≤ b then ninf else pinf
  | _, _ => nan

/-- Absolute value on cells. -/
def absV : Val → Val
  | num a => num |a|
  | pinf => pinf
  | ninf => pinf
  | _ => nan

/-- `a < b` as numpy evaluates it: any comparison with NaN is `false`. -/
def ltB : Val → Val → Bool
  | num a, num b => decide (a < b)
  | num _, pinf => true
  | ninf, num _ => true
  | ninf, pinf => true
  | _, _ => false

end Val

/-- Python's builtin `min x y`: `y` when `y < x`, else `x` (so
`min nan c = nan`). -/
def pyMin (x y : Val) : Val := if Val.ltB y x then y else x

/-- A named column. -/
abbrev Col := List Val

/-- A DataFrame: ordered association list of named columns. -/
abbrev Table := List (String × Col)

def getCol (t : Table) (name : String) : Option Col :=
  (t.find? (fun p => p.1 == name)).map (fun p => p.2)

def hasCol (t : Table) (name : String) : Bool := (getCol t name).isSome

/-- `data[name] = c`: replace the column in place when present, else
append it at the end (pandas column-assignment semantics). -/
def setCol : Table → String → Col → Table
  | [], name, c => [(name, c)]
  | p :: t, name, c => if p.1 == name then (name, c) :: t else p :: setCol t name c

/-- Number of rows (length of the first column). -/
def nRows (t : Table) : Nat :=
  match t with
  | [] => 0
  | p :: _ => p.2.length

/-- Cell access with NaN as the out-of-range/missing default. -/
def atIdx (xs : Col) (i : Nat) : Val := xs.getD i Val.nan

def cellAt (t : Table) (name : String) (i : Nat) : Val :=
  match getCol t name with
  | some c => atIdx c i
  | none => Val.nan

/-- `iloc[-1][name]`: the last entry of a column. -/
def lastVal (t : Table) (name : String) : Option Val :=
  (getCol t name).bind (fun c => c.getLast?)

/-- A series built from an index function. -/
def seriesOfFn (n : Nat) (f : Nat → Val) : Col := (List.range n).map f

/-- Elementwise combination of two aligned series. -/
def lift2 (f : Val → Val → Val) (xs ys : Col) : Col :=
  seriesOfFn xs.length (fun i => f (atIdx xs i) (atIdx ys i))

/-- `Series.pct_change()`: `x_i / x_{i-1} - 1`, NaN at row 0. -/
def pctChange (xs : Col) : Col :=
  seriesOfFn xs.length (fun i =>
    if i = 0 then Val.nan
    else Val.sub (Val.div (atIdx xs i) (atIdx xs (i - 1))) (Val.num 1))

/-- The trailing window of width `w` ending at row `i`. -/
def windowAt (w : Nat) (xs : Col) (i : Nat) : Col := (xs.take (i + 1)).drop (i + 1 - w)

/-- `Series.rolling(w).agg()` with the default `min_periods = w`: NaN for
the first `w - 1` rows and whenever the window contains a NaN. -/
def rollingApply (w : Nat) (f : Col → Val) (xs : Col) : Col :=
  seriesOfFn xs.length (fun i =>
    if i + 1 < w then Val.nan
    else if (windowAt w xs i).any Val.isNan then Val.nan
    else f (windowAt w xs i))

def sumV (l : Col) : Val := l.foldl Val.add (Val.num 0)

/-- Mean of a window (an infinity in the window propagates, as in pandas). -/
def meanV (l : Col) : Val := Val.div (sumV l) (Val.num l.length)

/-- All cells as rationals, `none` when any cell is non-finite. -/
def numsOf (l : Col) : Option (List ℚ) :=
  l.mapM (fun v => match v with | Val.num q => some q | _ => none)

def meanQ (l : List ℚ) : ℚ := l.sum / l.length

/-- Sample variance with `ddof = 1` (exact). -/
def svarQ (l : List ℚ) : ℚ :=
  (l.map (fun x => (x - meanQ l) * (x - meanQ l))).sum / ((l.length : ℚ) - 1)

/-- Structural integer square root (fuel recursion, so that it reduces in
the kernel). -/
def isqrtAux : Nat → Nat → Nat
  | 0, _ => 0
  | fuel + 1, n =>
      if n = 0 then 0
      else
        let r := isqrtAux fuel (n / 4) * 2
        if (r + 1) * (r + 1) ≤ n then r + 1 else r

def isqrt (n : Nat) : Nat := isqrtAux n n

/-- Rational approximation of the square root.  Used only for the
*stored magnitude* of standard-deviation columns; it is exactly `num` on
exactly the inputs where the float computation is finite, which is all
any verified claim uses. -/
def ratSqrt (q : ℚ) : ℚ := (isqrt (q.num.toNat * q.den) : ℚ) / (q.den : ℚ)

/-- Sample standard deviation of a window: NaN when any cell is
non-finite (numpy: an infinity makes the variance NaN) or when fewer
than two observations are present (`ddof = 1` gives `0/0`). -/
def stdV (l : Col) : Val :=
  match numsOf l with
  | some qs => if 2 ≤ qs.length then Val.num (ratSqrt (svarQ qs)) else Val.nan
  | none => Val.nan

/-- Sample variance of a window as a cell, same NaN structure as `stdV`. -/
def varV (l : Col) : Val :=
  match numsOf l with
  | some qs => if 2 ≤ qs.length then Val.num (svarQ qs) else Val.nan
  | none => Val.nan

def dropNan (l : Col) : Col := l.filter (fun v => !v.isNan)

/-- `x > m + s` where `s = sqrt v` is a sample standard deviation and `v`
its (exact) sample variance, encoded without irrationals: for `v ≥ 0`,
`x - m > sqrt v ↔ 0 < x - m ∧ (x-m)^2 > v`.  Any NaN operand gives
`false`, as the float comparison would. -/
def gtAddSqrt (x m v : Val) : Bool :=
  match x, m, v with
  | Val.num a, Val.num b, Val.num vq => decide (0 < a - b ∧ vq < (a - b) * (a - b))
  | Val.pinf, Val.num _, Val.num _ => true
  | _, _, _ => false

/-- `|x| > 2 * sqrt v` for a sample variance `v`, encoded exactly:
`|x| > 2*sqrt v ↔ x^2 > 4*v` (both sides nonnegative). -/
def absGtTwoSqrt (x v : Val) : Bool :=
  match x, v with
  | Val.num a, Val.num vq => decide (4 * vq < a * a)
  | Val.pinf, Val.num _ => true
  | Val.ninf, Val.num _ => true
  | _, _ => false

/-- Order used to sort numeric cells for quantiles. -/
def leSortB : Val → Val → Bool
  | Val.ninf, _ => true
  | Val.num a, Val.num b => decide (a ≤ b)
  | Val.num _, Val.pinf => true
  | Val.pinf, Val.pinf => true
  | _, _ => false

def insertSorted (x : Val) : Col → Col
  | [] => [x]
  | y :: ys => if leSortB x y then x :: y :: ys else y :: insertSorted x ys

def sortVals : Col → Col
  | [] => []
  | x :: xs => insertSorted x (sortVals xs)

/-- `Series.quantile(q)`: drop NaNs, sort, linearly interpolate at
position `q * (n - 1)` (pandas default interpolation). -/
def quantileV (l : Col) (q : ℚ) : Val :=
  let vs := sortVals (dropNan l)
  match vs.length with
  | 0 => Val.nan
  | m + 1 =>
      let h : ℚ := q * m
      let frac : ℚ := h - (h.floor : ℚ)
      let i : Nat := h.floor.toNat
      if frac = 0 then atIdx vs i
      else Val.add (atIdx vs i) (Val.mul (Val.num frac) (Val.sub (atIdx vs (i + 1)) (atIdx vs i)))

/-- `sqrt(252)` as the float64 value numpy computes.  It only ever
multiplies stored volatility figures; the verified claims use only its
positivity/finiteness, never its magnitude. -/
def sqrt252 : ℚ := 15.874507866387544

/-- Scale a volatility series to annualized percentage points:
`... * np.sqrt(252) * 100` (source lines 53-54). -/
def scaleRV (c : Col) : Col :=
  c.map (fun v => Val.mul (Val.mul v (Val.num sqrt252)) (Val.num 100))

/-- The working table built by `download_data` (source lines 42-62)
before `dropna`: raw close series plus all derived columns, in the
order the source assigns them. -/
def preTable (vix nikkei sp500 : Col) : Table :=
  let nret := pctChange nikkei
  let sret := pctChange sp500
  let vret := pctChange vix
  let rv5 := scaleRV (rollingApply 5 stdV nret)
  let rv20 := scaleRV (rollingApply 20 stdV nret)
  let spread := lift2 Val.sub vix rv20
  let ratioC := lift2 Val.div nikkei sp500
  let ma20 := rollingApply 20 meanV ratioC
  let devC := lift2 Val.sub ratioC ma20
  [("VIX", vix), ("Nikkei", nikkei), ("SP500", sp500),
   ("Nikkei_Returns", nret), ("SP500_Returns", sret), ("VIX_Returns", vret),
   ("Nikkei_RV_5d", rv5), ("Nikkei_RV_20d", rv20), ("VIX_RV_Spread", spread),
   ("Nikkei_SP500_Ratio", ratioC), ("Ratio_MA20", ma20), ("Ratio_Deviation", devC)]

/-- Does row `i` contain a NaN in any column? -/
def rowHasNan (t : Table) (i : Nat) : Bool :=
  t.any (fun p => (atIdx p.2 i).isNan)

/-- The row indices `DataFrame.dropna()` keeps. -/
def keptRows (t : Table) : List Nat :=
  (List.range (nRows t)).filter (fun i => !rowHasNan t i)

/-- `DataFrame.dropna()`: drop every row containing a NaN. -/
def dropna (t : Table) : Table :=
  t.map (fun p => (p.1, (keptRows t).map (fun i => atIdx p.2 i)))

/-- Embeds `GitHubVIXAnalyzer.download_data` (source lines 29-66).  The
three yfinance close series enter as pre-aligned columns; an empty
series models the `raise ValueError` branch (line 38-39). -/
def download_data (vix nikkei sp500 : Col) : Option Table :=
  if vix.isEmpty || nikkei.isEmpty || sp500.isEmpty then none
  else some (dropna (preTable vix nikkei sp500))

/-- Embeds `GitHubVIXAnalyzer.fit_garch_model` (source lines 68-88).
The GARCH(1,1) maximum-likelihood fit itself is the external `arch`
library, so its outcome enters as a parameter: `none` models an
exception raised inside the `try` (fit failure, caught by the `except`
which prints and returns `None`, leaving `self.data` untouched);
`some cv` models a successful fit whose conditional-volatility series is
`cv` (aligned to the table's rows).  The second component is the Python
return value (`garch_result` or `None`). -/
def fit_garch_model (t : Table) (fitOutcome : Option Col) : Table × Option Col :=
  match fitOutcome with
  | none => (t, none)
  | some cv =>
      let gcol := seriesOfFn (nRows t) (fun i => atIdx cv i)
      let t1 := setCol t "GARCH_Vol" gcol
      let t2 := setCol t1 "GARCH_Vol_Annualized"
        (gcol.map (fun v => Val.mul v (Val.num sqrt252)))
      (t2, some cv)

/-- Embeds `GitHubVIXAnalyzer.calculate_risk_indicators` (source lines
90-109).  A missing required column models the Python `KeyError`. -/
def calculate_risk_indicators (t : Table) : Option Table :=
  match getCol t "VIX" with
  | none => none
  | some vix =>
    -- self.data['VIX_MA20'] = self.data['VIX'].rolling(20).mean()
    let t1 := setCol t "VIX_MA20" (rollingApply 20 meanV vix)
    -- self.data['VIX_Spike'] =
    --   self.data['VIX'] > (self.data['VIX_MA20'] + self.data['VIX'].rolling(20).std())
    let ma := rollingApply 20 meanV vix
    let vvar := rollingApply 20 varV vix
    let t2 := setCol t1 "VIX_Spike"
      (seriesOfFn vix.length (fun i => Val.bool (gtAddSqrt (atIdx vix i) (atIdx ma i) (atIdx vvar i))))
    -- Vol_Regime, only when the GARCH column exists (lines 99-104)
    let t3 :=
      match getCol t2 "GARCH_Vol_Annualized" with
      | some g =>
          let q33 := quantileV g (33/100)
          let q67 := quantileV g (67/100)
          setCol t2 "Vol_Regime" (seriesOfFn g.length (fun i =>
            if Val.ltB q67 (atIdx g i) then Val.str "High"
            else if Val.ltB (atIdx g i) q33 then Val.str "Low"
            else Val.str "Medium"))
      | none => t2
    -- self.data['Ratio_Extreme'] =
    --   abs(self.data['Ratio_Deviation']) > self.data['Ratio_Deviation'].std() * 2
    match getCol t3 "Ratio_Deviation" with
    | none => none
    | some dev =>
        let dvar := varV (dropNan dev)
        some (setCol t3 "Ratio_Extreme"
          (seriesOfFn dev.length (fun i => Val.bool (absGtTwoSqrt (atIdx dev i) dvar))))

/-- `.astype(int)` on a cell; the pipeline only applies it to boolean
series (truncation on floats, unreachable branches default to 0). -/
def astypeInt : Val → ℤ
  | Val.bool b => if b then 1 else 0
  | Val.num q => q.num.tdiv q.den
  | _ => 0

def boolInt (b : Bool) : ℤ := if b then 1 else 0

/-- The fourth warning condition of `generate_signals` (source lines
120-123): `Vol_Regime == 'High'` when the column exists, else the
all-False series. -/
def volHighFlag (t : Table) (i : Nat) : Bool :=
  match getCol t "Vol_Regime" with
  | some vr => decide (atIdx vr i = Val.str "High")
  | none => false

/-- The per-row composite signal count of `generate_signals` (source
lines 115-129): the sum of the four boolean conditions as integers. -/
def signalCount (t : Table) (vix spread ratioExt : Col) (i : Nat) : ℤ :=
  boolInt (Val.ltB (Val.num 25) (atIdx vix i))
  + boolInt (Val.ltB (quantileV spread (4/5)) (atIdx spread i))
  + astypeInt (atIdx ratioExt i)
  + boolInt (volHighFlag t i)

/-- Embeds `GitHubVIXAnalyzer.generate_signals` (source lines 111-134). -/
def generate_signals (t : Table) : Option Table :=
  match getCol t "VIX", getCol t "VIX_RV_Spread", getCol t "Ratio_Extreme" with
  | some vix, some spread, some ratioExt =>
      let n := nRows t
      let t1 := setCol t "Warning_Signal"
        (seriesOfFn n (fun i => Val.bool (2 ≤ signalCount t vix spread ratioExt i)))
      let t2 := setCol t1 "Crash_Signal"
        (seriesOfFn n (fun i => Val.bool (3 ≤ signalCount t vix spread ratioExt i)))
      some t2
  | _, _, _ => none

/-- The record returned by `calculate_risk_score` (source lines 164-171). -/
structure RiskScoreResult where
  total_score : Val
  level : String
  vix_score : Val
  volatility_score : Val
  spread_score : Val
  ratio_score : Val
deriving DecidableEq, Repr

/-- Embeds `GitHubVIXAnalyzer.calculate_risk_score` (source lines
136-171).  `latest` is the last row; an absent column or empty table
models the Python `KeyError`/`IndexError`. -/
def calculate_risk_score (t : Table) : Option RiskScoreResult := do
  let vix ← lastVal t "VIX"
  -- vix_score = min(latest['VIX'] / 40 * 100, 100)
  let vix_score := pyMin (Val.mul (Val.div vix (Val.num 40)) (Val.num 100)) (Val.num 100)
  -- garch_score: conditional volatility when the column exists, else RV20
  let garch_score ←
    (if hasCol t "GARCH_Vol_Annualized" then do
        let g ← lastVal t "GARCH_Vol_Annualized"
        pure (pyMin (Val.mul (Val.div g (Val.num 30)) (Val.num 100)) (Val.num 100))
      else do
        let rv ← lastVal t "Nikkei_RV_20d"
        pure (pyMin (Val.mul (Val.div rv (Val.num 30)) (Val.num 100)) (Val.num 100)))
  -- spread_score = min(abs(latest['VIX_RV_Spread']) / 15 * 100, 100)
  let sp ← lastVal t "VIX_RV_Spread"
  let spread_score := pyMin (Val.mul (Val.div (Val.absV sp) (Val.num 15)) (Val.num 100)) (Val.num 100)
  -- ratio_score = min(abs(latest['Ratio_Deviation']) * 1000, 100)
  let dv ← lastVal t "Ratio_Deviation"
  let ratio_score := pyMin (Val.mul (Val.absV dv) (Val.num 1000)) (Val.num 100)
  -- total and three-tier level (strict thresholds, lines 152-160)
  let total := Val.div
    (Val.add (Val.add (Val.add vix_score garch_score) spread_score) ratio_score) (Val.num 4)
  let level :=
    if Val.ltB (Val.num 70) total then "🔴 HIGH RISK"
    else if Val.ltB (Val.num 40) total then "🟡 MEDIUM RISK"
    else "🟢 LOW RISK"
  pure ⟨total, level, vix_score, garch_score, spread_score, ratio_score⟩

/-! ### Basic computation lemmas -/

theorem Val.mul_num (a b : ℚ) : Val.mul (Val.num a) (Val.num b) = Val.num (a * b) := rfl

theorem Val.sub_num (a b : ℚ) : Val.sub (Val.num a) (Val.num b) = Val.num (a - b) := rfl

theorem Val.add_num (a b : ℚ) : Val.add (Val.num a) (Val.num b) = Val.num (a + b) := rfl

theorem Val.absV_num (a : ℚ) : Val.absV (Val.num a) = Val.num |a| := rfl

theorem Val.div_num (a b : ℚ) (hb : b ≠ 0) :
    Val.div (Val.num a) (Val.num b) = Val.num (a / b) := by
  simp [Val.div, hb]

theorem Val.ltB_num (a b : ℚ) : Val.ltB (Val.num a) (Val.num b) = decide (a < b) := rfl

theorem pyMin_num (a b : ℚ) : pyMin (Val.num a) (Val.num b) = Val.num (min a b) := by
  unfold pyMin
  rw [Val.ltB_num]
  rcases lt_or_le b a with h | h
  · simp [h, min_eq_right h.le]
  · simp [not_lt.mpr h, min_eq_left h]

/-- The clamped sub-score `min(x / c * 100, 100)` as the source computes it. -/
theorem score_clamp (x c : ℚ) (hc : c ≠ 0) :
    pyMin (Val.mul (Val.div (Val.num x) (Val.num c)) (Val.num 100)) (Val.num 100)
      = Val.num (min (x / c * 100) 100) := by
  rw [Val.div_num x c hc, Val.mul_num, pyMin_num]

theorem score_clamp_mul (x c : ℚ) :
    pyMin (Val.mul (Val.num x) (Val.num c)) (Val.num 100) = Val.num (min (x * c) 100) := by
  rw [Val.mul_num, pyMin_num]

/-!  ### C1  -/

/-- Shared characterization of the four sub-scores of
`calculate_risk_score` in terms of the latest row's values. -/
theorem subscores_spec (t : Table) (r : RiskScoreResult) (vx sp dv : ℚ)
    (hvix : lastVal t "VIX" = some (Val.num vx))
    (hsp : lastVal t "VIX_RV_Spread" = some (Val.num sp))
    (hdv : lastVal t "Ratio_Deviation" = some (Val.num dv))
    (hr : calculate_risk_score t = some r) :
    r.vix_score = Val.num (min (vx / 40 * 100) 100)
    ∧ r.spread_score = Val.num (min (|sp| / 15 * 100) 100)
    ∧ r.ratio_score = Val.num (min (|dv| * 1000) 100)
    ∧ (∀ g : ℚ, hasCol t "GARCH_Vol_Annualized" = true →
        lastVal t "GARCH_Vol_Annualized" = some (Val.num g) →
        r.volatility_score = Val.num (min (g / 30 * 100) 100))
    ∧ (∀ rv : ℚ, hasCol t "GARCH_Vol_Annualized" = false →
        lastVal t "Nikkei_RV_20d" = some (Val.num rv) →
        r.volatility_score = Val.num (min (rv / 30 * 100) 100)) := by
  by_cases hg : hasCol t "GARCH_Vol_Annualized"
  · cases hG : lastVal t "GARCH_Vol_Annualized" with
    | none => simp [calculate_risk_score, hvix, hg, hG] at hr
    | some v =>
        simp only [calculate_risk_score, hvix, hg, hG, if_true, Option.bind_eq_bind,
          Option.some_bind, hsp, hdv] at hr
        injection hr with hr
        subst hr
        refine ⟨?_, ?_, ?_, ?_, ?_⟩
        · exact score_clamp vx 40 (by norm_num)
        · rw [Val.absV_num]; exact score_clamp |sp| 15 (by norm_num)
        · rw [Val.absV_num]; exact score_clamp_mul |dv| 1000
        · intro g _ hG2
          have hv : v = Val.num g := Option.some.inj hG2
          rw [hv]
          exact score_clamp g 30 (by norm_num)
        · intro rv hgf _
          rw [hg] at hgf
          exact absurd hgf (by simp)
  · rw [Bool.not_eq_true] at hg
    cases hRV : lastVal t "Nikkei_RV_20d" with
    | none => simp [calculate_risk_score, hvix, hg, hRV] at hr
    | some v =>
        simp only [calculate_risk_score, hvix, hg, hRV, Bool.false_eq_true, if_false,
          Option.bind_eq_bind, Option.some_bind, hsp, hdv] at hr
        injection hr with hr
        subst hr
        refine ⟨?_, ?_, ?_, ?_, ?_⟩
        · exact score_clamp vx 40 (by norm_num)
        · rw [Val.absV_num]; exact score_clamp |sp| 15 (by norm_num)
        · rw [Val.absV_num]; exact score_clamp_mul |dv| 1000
        · intro g hgt _
          rw [hg] at hgt
          exact absurd hgt (by simp)
        · intro rv _ hRV2
          have hv : v = Val.num rv := Option.some.inj hRV2
          rw [hv]
          exact score_clamp rv 30 (by norm_num)

/-- C1: for the latest fully-populated observation, `calculate_risk_score`
computes `vix_score = min(VIX / 40 * 100, 100)`,
`spread_score = min(|VIX_RV_Spread| / 15 * 100, 100)`,
`ratio_score = min(|Ratio_Deviation| * 1000, 100)`, and
`volatility_score = min(AnnualizedVol / 30 * 100, 100)` where
`AnnualizedVol` is the annualized conditional (GARCH) volatility when that
column is present and otherwise the 20-day realized volatility
`Nikkei_RV_20d` (source lines 136-149). -/
theorem C1_subscore_formulas (t : Table) (r : RiskScoreResult) (vx sp dv : ℚ)
    (hvix : lastVal t "VIX" = some (Val.num vx))
    (hsp : lastVal t "VIX_RV_Spread" = some (Val.num sp))
    (hdv : lastVal t "Ratio_Deviation" = some (Val.num dv))
    (hr : calculate_risk_score t = some r) :
    r.vix_score = Val.num (min (vx / 40 * 100) 100)
    ∧ r.spread_score = Val.num (min (|sp| / 15 * 100) 100)
    ∧ r.ratio_score = Val.num (min (|dv| * 1000) 100)
    ∧ (∀ g : ℚ, hasCol t "GARCH_Vol_Annualized" = true →
        lastVal t "GARCH_Vol_Annualized" = some (Val.num g) →
        r.volatility_score = Val.num (min (g / 30 * 100) 100))
    ∧ (∀ rv : ℚ, hasCol t "GARCH_Vol_Annualized" = false →
        lastVal t "Nikkei_RV_20d" = some (Val.num rv) →
        r.volatility_score = Val.num (min (rv / 30 * 100) 100)) :=
  subscores_spec t r vx sp dv hvix hsp hdv hr

/-- A one-row table whose latest observation drives every sub-score to
exactly 70 (VIX 28, RV20 21, spread 10.5, deviation 0.07; no GARCH
column). -/
def tab70 : Table :=
  [("VIX", [Val.num 28]), ("Nikkei_RV_20d", [Val.num 21]),
   ("VIX_RV_Spread", [Val.num (21/2)]), ("Ratio_Deviation", [Val.num (7/100)])]

/-- A one-row table whose latest observation drives every sub-score to
exactly 40. -/
def tab40 : Table :=
  [("VIX", [Val.num 16]), ("Nikkei_RV_20d", [Val.num 12]),
   ("VIX_RV_Spread", [Val.num 6]), ("Ratio_Deviation", [Val.num (4/100)])]

/-- Helper: the composite and the level of any successful
`calculate_risk_score` result, in terms of its own sub-score cells
(source lines 151-160). -/
theorem total_level_spec (t : Table) (r : RiskScoreResult)
    (hr : calculate_risk_score t = some r) :
    r.total_score = Val.div
      (Val.add (Val.add (Val.add r.vix_score r.volatility_score) r.spread_score) r.ratio_score)
      (Val.num 4)
    ∧ r.level = (if Val.ltB (Val.num 70) r.total_score then "🔴 HIGH RISK"
        else if Val.ltB (Val.num 40) r.total_score then "🟡 MEDIUM RISK"
        else "🟢 LOW RISK") := by
  by_cases hg : hasCol t "GARCH_Vol_Annualized"
  · cases hvix : lastVal t "VIX" with
    | none => simp [calculate_risk_score, hvix] at hr
    | some v0 =>
      cases hG : lastVal t "GARCH_Vol_Annualized" with
      | none => simp [calculate_risk_score, hvix, hg, hG] at hr
      | some v1 =>
        cases hsp : lastVal t "VIX_RV_Spread" with
        | none => simp [calculate_risk_score, hvix, hg, hG, hsp] at hr
        | some v2 =>
          cases hdv : lastVal t "Ratio_Deviation" with
          | none => simp [calculate_risk_score, hvix, hg, hG, hsp, hdv] at hr
          | some v3 =>
            simp only [calculate_risk_score, hvix, hg, hG, hsp, hdv, if_true,
              Option.bind_eq_bind, Option.some_bind] at hr
            injection hr with hr
            subst hr
            exact ⟨rfl, rfl⟩
  · rw [Bool.not_eq_true] at hg
    cases hvix : lastVal t "VIX" with
    | none => simp [calculate_risk_score, hvix] at hr
    | some v0 =>
      cases hRV : lastVal t "Nikkei_RV_20d" with
      | none => simp [calculate_risk_score, hvix, hg, hRV] at hr
      | some v1 =>
        cases hsp : lastVal t "VIX_RV_Spread" with
        | none => simp [calculate_risk_score, hvix, hg, hRV, hsp] at hr
        | some v2 =>
          cases hdv : lastVal t "Ratio_Deviation" with
          | none => simp [calculate_risk_score, hvix, hg, hRV, hsp, hdv] at hr
          | some v3 =>
            simp only [calculate_risk_score, hvix, hg, hRV, hsp, hdv,
              Bool.false_eq_true, if_false, Option.bind_eq_bind, Option.some_bind] at hr
            injection hr with hr
            subst hr
            exact ⟨rfl, rfl⟩

/-- C2: for every quadruple of sub-scores the composite `total_score` is
their unweighted arithmetic mean, and the level uses strict thresholds:
`> 70` HIGH, `> 40` MEDIUM, else LOW; in particular a composite of
exactly 70 is MEDIUM and a composite of exactly 40 is LOW (witnessed on
the concrete tables `tab70` and `tab40`). -/
theorem C2_composite_mean_level (t : Table) (r : RiskScoreResult)
    (hr : calculate_risk_score t = some r) (s1 s2 s3 s4 : ℚ)
    (h1 : r.vix_score = Val.num s1) (h2 : r.volatility_score = Val.num s2)
    (h3 : r.spread_score = Val.num s3) (h4 : r.ratio_score = Val.num s4) :
    r.total_score = Val.num ((s1 + s2 + s3 + s4) / 4)
    ∧ r.level = (if 70 < (s1 + s2 + s3 + s4) / 4 then "🔴 HIGH RISK"
        else if 40 < (s1 + s2 + s3 + s4) / 4 then "🟡 MEDIUM RISK"
        else "🟢 LOW RISK")
    ∧ (calculate_risk_score tab70).map (fun x => (x.total_score, x.level))
        = some (Val.num 70, "🟡 MEDIUM RISK")
    ∧ (calculate_risk_score tab40).map (fun x => (x.total_score, x.level))
        = some (Val.num 40, "🟢 LOW RISK") := by
  obtain ⟨ht, hl⟩ := total_level_spec t r hr
  rw [h1, h2, h3, h4, Val.add_num, Val.add_num, Val.add_num,
    Val.div_num _ _ (by norm_num : (4:ℚ) ≠ 0)] at ht
  rw [ht, Val.ltB_num, Val.ltB_num] at hl
  refine ⟨ht, ?_, ?_, ?_⟩
  · rw [hl]
    by_cases hH : 70 < (s1 + s2 + s3 + s4) / 4
    · simp [hH]
    · by_cases hM : 40 < (s1 + s2 + s3 + s4) / 4 <;> simp [hH, hM]
  · with_unfolding_all rfl
  · with_unfolding_all rfl

/-- The result record `calculate_risk_score` produces on `tab70`. -/
def r70c : RiskScoreResult :=
  ⟨Val.num 70, "🟡 MEDIUM RISK", Val.num 70, Val.num 70, Val.num 70, Val.num 70⟩

/-- The result record `calculate_risk_score` produces on `tab40`. -/
def r40c : RiskScoreResult :=
  ⟨Val.num 40, "🟢 LOW RISK", Val.num 40, Val.num 40, Val.num 40, Val.num 40⟩

/-- Witness for C1 at the concrete table `tab70`. -/
theorem C1_witness : r70c.vix_score = Val.num (min ((28:ℚ) / 40 * 100) 100) :=
  (C1_subscore_formulas tab70 r70c 28 (21/2) (7/100)
    (by with_unfolding_all rfl) (by with_unfolding_all rfl)
    (by with_unfolding_all rfl) (by with_unfolding_all rfl)).1

/-- Witness for C2 at the concrete table `tab70`. -/
theorem C2_witness : r70c.total_score = Val.num (((70:ℚ) + 70 + 70 + 70) / 4) :=
  (C2_composite_mean_level tab70 r70c (by with_unfolding_all rfl)
    70 70 70 70 rfl rfl rfl rfl).1

/-!  ### C3  -/

/-- A one-row table with a negative VIX. -/
def c3tab : Table :=
  [("VIX", [Val.num (-80)]), ("Nikkei_RV_20d", [Val.num 15]),
   ("VIX_RV_Spread", [Val.num 0]), ("Ratio_Deviation", [Val.num 0])]

/-- C3 counterexample: the claim asserts every sub-score lies in
`[0,100]` for *every* possible input observation; but the code clamps
only from above (`min(VIX / 40 * 100, 100)`, source line 141), so the
observation with `VIX = -80` yields `vix_score = -200 < 0`. -/
theorem C3_counterexample :
    (calculate_risk_score c3tab).map (fun r => r.vix_score) = some (Val.num (-200))
    ∧ ((-200 : ℚ) < 0) := by
  constructor
  · with_unfolding_all rfl
  · norm_num

/-- C3 (amended): each of the four sub-scores is at most 100 (upper
clamp); `spread_score` and `ratio_score` also lie in `[0,100]`
unconditionally (they clamp an absolute value); `vix_score` and
`volatility_score` are nonnegative only when the underlying input is
nonnegative — the code has no lower clamp; and `VIX = 1000` yields
`vix_score = 100` exactly. -/
theorem C3_subscore_bounds (t : Table) (r : RiskScoreResult) (vx sp dv g : ℚ)
    (hvix : lastVal t "VIX" = some (Val.num vx))
    (hsp : lastVal t "VIX_RV_Spread" = some (Val.num sp))
    (hdv : lastVal t "Ratio_Deviation" = some (Val.num dv))
    (hvol : (hasCol t "GARCH_Vol_Annualized" = true
              ∧ lastVal t "GARCH_Vol_Annualized" = some (Val.num g))
          ∨ (hasCol t "GARCH_Vol_Annualized" = false
              ∧ lastVal t "Nikkei_RV_20d" = some (Val.num g)))
    (hr : calculate_risk_score t = some r) :
    (∃ a, r.vix_score = Val.num a ∧ a ≤ 100
        ∧ (0 ≤ vx → 0 ≤ a) ∧ (vx = 1000 → a = 100))
    ∧ (∃ b, r.volatility_score = Val.num b ∧ b ≤ 100 ∧ (0 ≤ g → 0 ≤ b))
    ∧ (∃ c, r.spread_score = Val.num c ∧ 0 ≤ c ∧ c ≤ 100)
    ∧ (∃ d, r.ratio_score = Val.num d ∧ 0 ≤ d ∧ d ≤ 100) := by
  obtain ⟨hv, hs, hrt, hgar, hrv⟩ := subscores_spec t r vx sp dv hvix hsp hdv hr
  refine ⟨⟨min (vx / 40 * 100) 100, hv, min_le_right _ _, ?_, ?_⟩, ?_,
    ⟨min (|sp| / 15 * 100) 100, hs, le_min (by positivity) (by norm_num), min_le_right _ _⟩,
    ⟨min (|dv| * 1000) 100, hrt, le_min (by positivity) (by norm_num), min_le_right _ _⟩⟩
  · intro h0
    exact le_min (by positivity) (by norm_num)
  · intro h1000
    subst h1000
    norm_num
  · rcases hvol with ⟨hc, hg⟩ | ⟨hc, hg⟩
    · exact ⟨min (g / 30 * 100) 100, hgar g hc hg, min_le_right _ _,
        fun h0 => le_min (by positivity) (by norm_num)⟩
    · exact ⟨min (g / 30 * 100) 100, hrv g hc hg, min_le_right _ _,
        fun h0 => le_min (by positivity) (by norm_num)⟩

/-- Witness for the amended C3 at the concrete table `tab40`. -/
theorem C3_witness :
    ∃ a, r40c.vix_score = Val.num a ∧ a ≤ 100
      ∧ (0 ≤ (16:ℚ) → 0 ≤ a) ∧ ((16:ℚ) = 1000 → a = 100) :=
  (C3_subscore_bounds tab40 r40c 16 6 (4/100) 12
    (by with_unfolding_all rfl) (by with_unfolding_all rfl) (by with_unfolding_all rfl)
    (Or.inr ⟨by with_unfolding_all rfl, by with_unfolding_all rfl⟩)
    (by with_unfolding_all rfl)).1

/-!  ### C10  -/

/-- Two tables with the same column names have the same `hasCol`. -/
theorem hasCol_congr (t1 t2 : Table) (h : t1.map Prod.fst = t2.map Prod.fst) :
    ∀ name, hasCol t1 name = hasCol t2 name := by
  induction t1 generalizing t2 with
  | nil =>
    cases t2 with
    | nil => intro name; rfl
    | cons q l2 => simp at h
  | cons p l1 ih =>
    cases t2 with
    | nil => simp at h
    | cons q l2 =>
      simp only [List.map_cons, List.cons.injEq] at h
      intro name
      have hqq : (q.1 == name) = (p.1 == name) := by rw [h.1]
      cases hq : (p.1 == name) with
      | true => simp [hasCol, getCol, List.find?, hq, hqq]
      | false =>
        simp only [hasCol, getCol, List.find?, hq, hqq]
        exact ih l2 h.2 name

/-- Two tables with the same column names and columnwise-equal last
entries have the same `lastVal`. -/
theorem lastVal_congr (t1 t2 : Table)
    (h : t1.map (fun p => (p.1, p.2.getLast?)) = t2.map (fun p => (p.1, p.2.getLast?))) :
    ∀ name, lastVal t1 name = lastVal t2 name := by
  induction t1 generalizing t2 with
  | nil =>
    cases t2 with
    | nil => intro name; rfl
    | cons q l2 => simp at h
  | cons p l1 ih =>
    cases t2 with
    | nil => simp at h
    | cons q l2 =>
      simp only [List.map_cons, List.cons.injEq, Prod.mk.injEq] at h
      intro name
      have hqq : (q.1 == name) = (p.1 == name) := by rw [h.1.1]
      cases hq : (p.1 == name) with
      | true => simp [lastVal, getCol, List.find?, hq, hqq, h.1.2]
      | false =>
        simp only [lastVal, getCol, List.find?, hq, hqq]
        exact ih l2 h.2 name

/-- C10: `calculate_risk_score` depends only on which columns exist and
on the last row: two tables with the same column set and equal last
entries per column produce identical results, regardless of all earlier
rows. -/
theorem C10_last_row_only (t1 t2 : Table)
    (hcols : ∀ name, hasCol t1 name = hasCol t2 name)
    (hlast : ∀ name, lastVal t1 name = lastVal t2 name) :
    calculate_risk_score t1 = calculate_risk_score t2 := by
  simp only [calculate_risk_score, hcols, hlast]

/-- A two-row table and a one-row table with the same column names and
equal last rows. -/
def wtA : Table :=
  [("VIX", [Val.num 50, Val.num 28]), ("Nikkei_RV_20d", [Val.num 1, Val.num 21]),
   ("VIX_RV_Spread", [Val.num 9, Val.num (21/2)]),
   ("Ratio_Deviation", [Val.num 8, Val.num (7/100)])]

def wtB : Table :=
  [("VIX", [Val.num 28]), ("Nikkei_RV_20d", [Val.num 21]),
   ("VIX_RV_Spread", [Val.num (21/2)]), ("Ratio_Deviation", [Val.num (7/100)])]

/-- Witness for C10: the two concrete tables `wtA`/`wtB` differ in all
but the last row yet score identically. -/
theorem C10_witness : calculate_risk_score wtA = calculate_risk_score wtB :=
  C10_last_row_only wtA wtB (hasCol_congr wtA wtB rfl) (lastVal_congr wtA wtB rfl)

/-! ### Table access lemmas -/

theorem atIdx_seriesOfFn (n : Nat) (f : Nat → Val) (i : Nat) :
    atIdx (seriesOfFn n f) i = if i < n then f i else Val.nan := by
  simp only [atIdx, seriesOfFn, List.getD_eq_getElem?_getD, List.getElem?_map]
  split
  · rename_i h
    rw [List.getElem?_range h]
    rfl
  · rename_i h
    rw [List.getElem?_eq_none]
    · rfl
    · simpa using Nat.le_of_not_lt h

theorem getCol_setCol_self (t : Table) (name : String) (c : Col) :
    getCol (setCol t name c) name = some c := by
  induction t with
  | nil => simp [setCol, getCol, List.find?]
  | cons p l ih =>
    simp only [setCol]
    cases hp : (p.1 == name) with
    | true => simp [getCol, List.find?]
    | false =>
      simp only [Bool.false_eq_true, if_false]
      simpa [getCol, List.find?, hp] using ih

theorem getCol_setCol_ne (t : Table) (name : String) (c : Col) (nm2 : String)
    (hne : nm2 ≠ name) :
    getCol (setCol t name c) nm2 = getCol t nm2 := by
  have hb : (name == nm2) = false := by
    simp only [beq_eq_false_iff_ne, ne_eq]
    exact fun hcontra => hne hcontra.symm
  induction t with
  | nil => simp [setCol, getCol, List.find?, hb]
  | cons p l ih =>
    simp only [setCol]
    cases hp : (p.1 == name) with
    | true =>
      have hp1 : p.1 = name := by simpa [beq_iff_eq] using hp
      simp [getCol, List.find?, hb, hp1]
    | false =>
      simp only [Bool.false_eq_true, if_false]
      cases hp2 : (p.1 == nm2) with
      | true => simp [getCol, List.find?, hp2]
      | false => simpa [getCol, List.find?, hp2] using ih

theorem hasCol_false_iff (t : Table) (name : String) :
    hasCol t name = false ↔ getCol t name = none := by
  unfold hasCol
  cases getCol t name <;> simp

/-!  ### C4  -/

/-- C4: for every period, the signal count of `generate_signals` is the sum
of the four booleans (`VIX > 25`; `VIX_RV_Spread` above its full-history
80th percentile; the stored `Ratio_Extreme` dislocation flag, i.e.
`|Ratio_Deviation|` above twice its full-history standard deviation; and
volatility regime == High); `Warning_Signal` is true iff the count is at
least 2, `Crash_Signal` iff it is at least 3 — for all 16 combinations of
the four booleans, which are universally quantified here. -/
theorem C4_signal_aggregation (t out : Table)
    (h : generate_signals t = some out)
    (vix spread ratioExt w c : Col)
    (hv : getCol t "VIX" = some vix)
    (hs : getCol t "VIX_RV_Spread" = some spread)
    (hx : getCol t "Ratio_Extreme" = some ratioExt)
    (hw : getCol out "Warning_Signal" = some w)
    (hc : getCol out "Crash_Signal" = some c) :
    ∀ i, i < nRows t → ∀ b3 : Bool, atIdx ratioExt i = Val.bool b3 →
      (atIdx w i = Val.bool (2 ≤ boolInt (Val.ltB (Val.num 25) (atIdx vix i))
          + boolInt (Val.ltB (quantileV spread (4/5)) (atIdx spread i))
          + boolInt b3 + boolInt (volHighFlag t i))
      ∧ atIdx c i = Val.bool (3 ≤ boolInt (Val.ltB (Val.num 25) (atIdx vix i))
          + boolInt (Val.ltB (quantileV spread (4/5)) (atIdx spread i))
          + boolInt b3 + boolInt (volHighFlag t i))) := by
  intro i hi b3 hb3
  simp only [generate_signals, hv, hs, hx] at h
  injection h with h
  subst h
  rw [getCol_setCol_ne _ _ _ _ (by decide), getCol_setCol_self] at hw
  rw [getCol_setCol_self] at hc
  injection hw with hw
  injection hc with hc
  subst hw
  subst hc
  rw [atIdx_seriesOfFn, if_pos hi, atIdx_seriesOfFn, if_pos hi]
  constructor
  · simp only [signalCount, hb3]
    rfl
  · simp only [signalCount, hb3]
    rfl

/-!  ### C9  -/

/-- C9: after `generate_signals` runs, `Crash_Signal` implies
`Warning_Signal` on every row: the crash flag requires a signal count of
at least 3, which is in particular at least 2. -/
theorem C9_crash_implies_warning (t out : Table)
    (h : generate_signals t = some out) (w c : Col)
    (hw : getCol out "Warning_Signal" = some w)
    (hc : getCol out "Crash_Signal" = some c) :
    ∀ i, atIdx c i = Val.bool true → atIdx w i = Val.bool true := by
  intro i hci
  cases hv : getCol t "VIX" with
  | none => simp [generate_signals, hv] at h
  | some vix =>
  cases hs : getCol t "VIX_RV_Spread" with
  | none => simp [generate_signals, hv, hs] at h
  | some spread =>
  cases hx : getCol t "Ratio_Extreme" with
  | none => simp [generate_signals, hv, hs, hx] at h
  | some ratioExt =>
  simp only [generate_signals, hv, hs, hx] at h
  injection h with h
  subst h
  rw [getCol_setCol_ne _ _ _ _ (by decide), getCol_setCol_self] at hw
  rw [getCol_setCol_self] at hc
  injection hw with hw
  injection hc with hc
  subst hw
  subst hc
  rw [atIdx_seriesOfFn] at hci ⊢
  by_cases hi : i < nRows t
  · rw [if_pos hi] at hci ⊢
    injection hci with hci
    have h3 : 3 ≤ signalCount t vix spread ratioExt i := of_decide_eq_true hci
    have h2 : 2 ≤ signalCount t vix spread ratioExt i := le_trans (by norm_num) h3
    rw [decide_eq_true h2]
  · rw [if_neg hi] at hci
    exact absurd hci (by simp)

/-- A two-row table for exercising `generate_signals` (no `Vol_Regime`
column, so the fourth condition is all-False). -/
def wst : Table :=
  [("VIX", [Val.num 30, Val.num 30]),
   ("VIX_RV_Spread", [Val.num 0, Val.num 10]),
   ("Ratio_Extreme", [Val.bool true, Val.bool true])]

/-- The table `generate_signals` produces on `wst`: on row 1 the VIX,
spread (10 > 80th pct = 8) and ratio conditions hold (count 3); on row 0
only VIX and ratio hold (count 2). -/
def wstOut : Table :=
  [("VIX", [Val.num 30, Val.num 30]),
   ("VIX_RV_Spread", [Val.num 0, Val.num 10]),
   ("Ratio_Extreme", [Val.bool true, Val.bool true]),
   ("Warning_Signal", [Val.bool true, Val.bool true]),
   ("Crash_Signal", [Val.bool false, Val.bool true])]

/-- Witness for C4 at the concrete table `wst`, row 1. -/
theorem C4_witness :
    atIdx [Val.bool true, Val.bool true] 1
      = Val.bool (2 ≤ boolInt (Val.ltB (Val.num 25) (atIdx [Val.num 30, Val.num 30] 1))
          + boolInt (Val.ltB (quantileV [Val.num 0, Val.num 10] (4/5))
              (atIdx [Val.num 0, Val.num 10] 1))
          + boolInt true + boolInt (volHighFlag wst 1)) :=
  (C4_signal_aggregation wst wstOut (by with_unfolding_all rfl)
    [Val.num 30, Val.num 30] [Val.num 0, Val.num 10] [Val.bool true, Val.bool true]
    [Val.bool true, Val.bool true] [Val.bool false, Val.bool true]
    (by with_unfolding_all rfl) (by with_unfolding_all rfl) (by with_unfolding_all rfl)
    (by with_unfolding_all rfl) (by with_unfolding_all rfl)
    1 (by decide) true rfl).1

/-- Witness for C9 at the concrete table `wst`: row 1 carries a crash
flag and indeed also a warning flag. -/
theorem C9_witness :
    atIdx [Val.bool true, Val.bool true] 1 = Val.bool true :=
  C9_crash_implies_warning wst wstOut (by with_unfolding_all rfl)
    [Val.bool true, Val.bool true] [Val.bool false, Val.bool true]
    (by with_unfolding_all rfl) (by with_unfolding_all rfl)
    1 (by with_unfolding_all rfl)

/-!  ### C8  -/

/-- Columns other than the four indicator columns pass through
`calculate_risk_indicators` unchanged. -/
theorem getCol_indicators_preserved (t out : Table) (name : String)
    (h : calculate_risk_indicators t = some out)
    (h1 : name ≠ "VIX_MA20") (h2 : name ≠ "VIX_Spike")
    (h3 : name ≠ "Vol_Regime") (h4 : name ≠ "Ratio_Extreme") :
    getCol out name = getCol t name := by
  cases hv : getCol t "VIX" with
  | none => simp [calculate_risk_indicators, hv] at h
  | some vix =>
  simp only [calculate_risk_indicators, hv] at h
  rw [getCol_setCol_ne _ _ _ _ (by decide), getCol_setCol_ne _ _ _ _ (by decide)] at h
  cases hgar : getCol t "GARCH_Vol_Annualized" with
  | none =>
    rw [hgar] at h
    rw [getCol_setCol_ne _ _ _ _ (by decide), getCol_setCol_ne _ _ _ _ (by decide)] at h
    cases hdev : getCol t "Ratio_Deviation" with
    | none => rw [hdev] at h; simp at h
    | some dev =>
      rw [hdev] at h
      injection h with h
      subst h
      rw [getCol_setCol_ne _ _ _ _ h4, getCol_setCol_ne _ _ _ _ h2,
        getCol_setCol_ne _ _ _ _ h1]
  | some g =>
    rw [hgar] at h
    rw [getCol_setCol_ne _ _ _ _ (by decide), getCol_setCol_ne _ _ _ _ (by decide),
      getCol_setCol_ne _ _ _ _ (by decide)] at h
    cases hdev : getCol t "Ratio_Deviation" with
    | none => rw [hdev] at h; simp at h
    | some dev =>
      rw [hdev] at h
      injection h with h
      subst h
      rw [getCol_setCol_ne _ _ _ _ h4, getCol_setCol_ne _ _ _ _ h3,
        getCol_setCol_ne _ _ _ _ h2, getCol_setCol_ne _ _ _ _ h1]

/-- Columns other than the two signal columns pass through
`generate_signals` unchanged. -/
theorem getCol_signals_preserved (t out : Table) (name : String)
    (h : generate_signals t = some out)
    (h1 : name ≠ "Warning_Signal") (h2 : name ≠ "Crash_Signal") :
    getCol out name = getCol t name := by
  cases hv : getCol t "VIX" with
  | none => simp [generate_signals, hv] at h
  | some vix =>
  cases hs : getCol t "VIX_RV_Spread" with
  | none => simp [generate_signals, hv, hs] at h
  | some spread =>
  cases hx : getCol t "Ratio_Extreme" with
  | none => simp [generate_signals, hv, hs, hx] at h
  | some ratioExt =>
  simp only [generate_signals, hv, hs, hx] at h
  injection h with h
  subst h
  rw [getCol_setCol_ne _ _ _ _ h2, getCol_setCol_ne _ _ _ _ h1]

/-- A table that already contains a column named `VIX_MA20`. -/
def c8tab : Table :=
  [("VIX", [Val.num 1]), ("Ratio_Deviation", [Val.num 0]), ("VIX_MA20", [Val.num 5])]

/-- C8 counterexample: the claim quantifies over *every* input table and
*every* column already present, but `calculate_risk_indicators`
overwrites a pre-existing column named `VIX_MA20` (pandas assignment
replaces columns in place): on `c8tab` the stored `[5]` becomes the
recomputed 20-day rolling mean `[NaN]`. -/
theorem C8_counterexample :
    (calculate_risk_indicators c8tab).map (fun out => getCol out "VIX_MA20")
      = some (some [Val.nan])
    ∧ getCol c8tab "VIX_MA20" = some [Val.num 5] := by
  constructor
  · with_unfolding_all rfl
  · with_unfolding_all rfl

/-- C8 (amended): `calculate_risk_indicators` and `generate_signals`
leave every column unchanged whose name is not among the columns they
(re)assign — `VIX_MA20`, `VIX_Spike`, `Vol_Regime`, `Ratio_Extreme`,
resp. `Warning_Signal`, `Crash_Signal`; on pipeline tables, which never
contain those names beforehand, every pre-existing column is preserved
and the functions only extend the table. -/
theorem C8_frame_preservation (t out : Table) (name : String) :
    (calculate_risk_indicators t = some out →
      name ≠ "VIX_MA20" → name ≠ "VIX_Spike" → name ≠ "Vol_Regime" →
      name ≠ "Ratio_Extreme" → getCol out name = getCol t name)
    ∧ (generate_signals t = some out →
      name ≠ "Warning_Signal" → name ≠ "Crash_Signal" →
      getCol out name = getCol t name) :=
  ⟨fun h h1 h2 h3 h4 => getCol_indicators_preserved t out name h h1 h2 h3 h4,
   fun h h1 h2 => getCol_signals_preserved t out name h h1 h2⟩

/-- The table `calculate_risk_indicators` produces on `c8tab`. -/
def c8out : Table :=
  [("VIX", [Val.num 1]), ("Ratio_Deviation", [Val.num 0]), ("VIX_MA20", [Val.nan]),
   ("VIX_Spike", [Val.bool false]), ("Ratio_Extreme", [Val.bool false])]

/-- Witness for the amended C8: the untouched `VIX` column of `c8tab`. -/
theorem C8_witness : getCol c8out "VIX" = getCol c8tab "VIX" :=
  (C8_frame_preservation c8tab c8out "VIX").1 (by with_unfolding_all rfl)
    (by decide) (by decide) (by decide) (by decide)

/-!  ### C5  -/

/-- When the GARCH column is absent, `calculate_risk_indicators` takes
its `| none =>` branch and the `Vol_Regime` column is exactly as in the
input (in the pipeline: absent). -/
theorem getCol_indicators_vol_regime (t out : Table)
    (hgar : getCol t "GARCH_Vol_Annualized" = none)
    (h : calculate_risk_indicators t = some out) :
    getCol out "Vol_Regime" = getCol t "Vol_Regime" := by
  cases hv : getCol t "VIX" with
  | none => simp [calculate_risk_indicators, hv] at h
  | some vix =>
  simp only [calculate_risk_indicators, hv] at h
  rw [getCol_setCol_ne _ _ _ _ (by decide), getCol_setCol_ne _ _ _ _ (by decide),
    hgar] at h
  rw [getCol_setCol_ne _ _ _ _ (by decide), getCol_setCol_ne _ _ _ _ (by decide)] at h
  cases hdev : getCol t "Ratio_Deviation" with
  | none => rw [hdev] at h; simp at h
  | some dev =>
    rw [hdev] at h
    injection h with h
    subst h
    rw [getCol_setCol_ne _ _ _ _ (by decide), getCol_setCol_ne _ _ _ _ (by decide),
      getCol_setCol_ne _ _ _ _ (by decide)]

/-- When the GARCH column is absent, `calculate_risk_score` sources the
volatility sub-score from the last `Nikkei_RV_20d` value. -/
theorem volatility_from_rv (t : Table) (r : RiskScoreResult) (rv : ℚ)
    (hg : hasCol t "GARCH_Vol_Annualized" = false)
    (hrv : lastVal t "Nikkei_RV_20d" = some (Val.num rv))
    (hr : calculate_risk_score t = some r) :
    r.volatility_score = Val.num (min (rv / 30 * 100) 100) := by
  cases hvix : lastVal t "VIX" with
  | none => simp [calculate_risk_score, hvix] at hr
  | some v0 =>
  cases hsp : lastVal t "VIX_RV_Spread" with
  | none => simp [calculate_risk_score, hvix, hg, hrv, hsp] at hr
  | some v2 =>
  cases hdv : lastVal t "Ratio_Deviation" with
  | none => simp [calculate_risk_score, hvix, hg, hrv, hsp, hdv] at hr
  | some v3 =>
  simp only [calculate_risk_score, hvix, hg, hrv, hsp, hdv, Bool.false_eq_true,
    if_false, Option.bind_eq_bind, Option.some_bind] at hr
  injection hr with hr
  subst hr
  exact score_clamp rv 30 (by norm_num)

/-- C5: on a GARCH fit failure no exception propagates
(`fit_garch_model` returns normally with the table untouched and the
Python return value `None`); the `GARCH_Vol`/`GARCH_Vol_Annualized`
columns remain entirely absent; the regime condition (`volHighFlag`, the
fourth boolean of `generate_signals`) is false for every period, and
`calculate_risk_indicators` does not create a `Vol_Regime` column; and
`calculate_risk_score` computes the volatility sub-score from the 20-day
realized volatility `Nikkei_RV_20d`. -/
theorem C5_garch_failure_fallback (t : Table) :
    fit_garch_model t none = (t, none)
    ∧ (hasCol t "GARCH_Vol" = false →
        hasCol (fit_garch_model t none).1 "GARCH_Vol" = false)
    ∧ (hasCol t "GARCH_Vol_Annualized" = false →
        hasCol (fit_garch_model t none).1 "GARCH_Vol_Annualized" = false)
    ∧ (hasCol t "Vol_Regime" = false → ∀ i, volHighFlag t i = false)
    ∧ (∀ out, hasCol t "GARCH_Vol_Annualized" = false →
        calculate_risk_indicators t = some out →
        hasCol out "Vol_Regime" = hasCol t "Vol_Regime")
    ∧ (∀ (r : RiskScoreResult) (rv : ℚ), hasCol t "GARCH_Vol_Annualized" = false →
        lastVal t "Nikkei_RV_20d" = some (Val.num rv) →
        calculate_risk_score t = some r →
        r.volatility_score = Val.num (min (rv / 30 * 100) 100)) := by
  refine ⟨rfl, fun h => h, fun h => h, ?_, ?_, ?_⟩
  · intro h i
    rw [hasCol_false_iff] at h
    simp [volHighFlag, h]
  · intro out hg hind
    rw [hasCol_false_iff] at hg
    unfold hasCol
    rw [getCol_indicators_vol_regime t out hg hind]
  · intro r rv hg hrv hr
    exact volatility_from_rv t r rv hg hrv hr

/-- Witness for C5 at the concrete table `tab40` (no GARCH column): the
volatility sub-score comes from `Nikkei_RV_20d = 12`. -/
theorem C5_witness : r40c.volatility_score = Val.num (min ((12:ℚ) / 30 * 100) 100) :=
  (C5_garch_failure_fallback tab40).2.2.2.2.2 r40c 12
    (by with_unfolding_all rfl) (by with_unfolding_all rfl) (by with_unfolding_all rfl)

/-! ### Definedness machinery for the derived columns of `download_data` -/

/-- Raw input series of strictly positive finite floats. -/
def posNumList (l : Col) : Prop := ∀ v ∈ l, ∃ q : ℚ, v = Val.num q ∧ 0 < q

theorem length_seriesOfFn (m : Nat) (f : Nat → Val) : (seriesOfFn m f).length = m := by
  simp [seriesOfFn]

theorem atIdx_oob (xs : Col) (i : Nat) (h : xs.length ≤ i) : atIdx xs i = Val.nan := by
  rw [atIdx, List.getD_eq_getElem?_getD, List.getElem?_eq_none h]
  rfl

theorem posNum_atIdx (xs : Col) (h : posNumList xs) (i : Nat) (hi : i < xs.length) :
    ∃ q, atIdx xs i = Val.num q ∧ 0 < q := by
  obtain ⟨q, hq, h0⟩ := h _ (List.getElem_mem hi)
  refine ⟨q, ?_, h0⟩
  rw [atIdx, List.getD_eq_getElem?_getD, List.getElem?_eq_getElem hi]
  simpa using hq

theorem atIdx_map (g : Val → Val) (c : Col) (i : Nat) :
    atIdx (c.map g) i = if i < c.length then g (atIdx c i) else Val.nan := by
  split
  · rename_i h
    simp [atIdx, List.getD_eq_getElem?_getD, List.getElem?_map, List.getElem?_eq_getElem h]
  · rename_i h
    exact atIdx_oob _ _ (by simpa using Nat.le_of_not_lt h)

theorem atIdx_lift2 (f : Val → Val → Val) (xs ys : Col) (i : Nat) :
    atIdx (lift2 f xs ys) i =
      if i < xs.length then f (atIdx xs i) (atIdx ys i) else Val.nan := by
  rw [lift2, atIdx_seriesOfFn]

theorem atIdx_rollingApply (w : Nat) (f : Col → Val) (xs : Col) (i : Nat) :
    atIdx (rollingApply w f xs) i =
      if i < xs.length then
        (if i + 1 < w then Val.nan
         else if (windowAt w xs i).any Val.isNan then Val.nan
         else f (windowAt w xs i))
      else Val.nan := by
  rw [rollingApply, atIdx_seriesOfFn]

theorem windowAt_length (w : Nat) (xs : Col) (i : Nat) (hi : i < xs.length)
    (hw : w ≤ i + 1) : (windowAt w xs i).length = w := by
  simp only [windowAt, List.length_drop, List.length_take]
  omega

theorem windowAt_mem_spec (w : Nat) (xs : Col) (i : Nat) (x : Val)
    (hx : x ∈ windowAt w xs i) :
    ∃ j, i + 1 - w ≤ j ∧ j ≤ i ∧ j < xs.length ∧ x = atIdx xs j := by
  obtain ⟨k, hk⟩ := List.mem_iff_getElem?.mp hx
  rw [windowAt, List.getElem?_drop, List.getElem?_take] at hk
  by_cases hcond : i + 1 - w + k < i + 1
  · rw [if_pos hcond] at hk
    have hlen : i + 1 - w + k < xs.length := by
      by_contra hc
      rw [List.getElem?_eq_none (Nat.le_of_not_lt hc)] at hk
      exact Option.noConfusion hk
    refine ⟨i + 1 - w + k, Nat.le_add_right _ _, by omega, hlen, ?_⟩
    rw [List.getElem?_eq_getElem hlen] at hk
    rw [atIdx, List.getD_eq_getElem?_getD, List.getElem?_eq_getElem hlen]
    exact (Option.some.inj hk).symm
  · rw [if_neg hcond] at hk
    exact Option.noConfusion hk

theorem atIdx_mem_windowAt (w : Nat) (xs : Col) (i j : Nat)
    (hj1 : i + 1 - w ≤ j) (hj2 : j ≤ i) (hi : i < xs.length) :
    atIdx xs j ∈ windowAt w xs i := by
  rw [List.mem_iff_getElem?]
  refine ⟨j - (i + 1 - w), ?_⟩
  rw [windowAt, List.getElem?_drop, List.getElem?_take]
  have h1 : i + 1 - w + (j - (i + 1 - w)) = j := by omega
  rw [h1, if_pos (by omega)]
  have hj : j < xs.length := by omega
  rw [List.getElem?_eq_getElem hj, atIdx, List.getD_eq_getElem?_getD,
    List.getElem?_eq_getElem hj]
  rfl

theorem numsOf_all_num (l : Col) (h : ∀ x ∈ l, ∃ q : ℚ, x = Val.num q) :
    ∃ qs : List ℚ, numsOf l = some qs ∧ qs.length = l.length := by
  induction l with
  | nil => exact ⟨[], rfl, rfl⟩
  | cons x xs ih =>
    obtain ⟨q, hq⟩ := h x (by simp)
    obtain ⟨qs, hqs, hlen⟩ := ih (fun y hy => h y (by simp [hy]))
    subst hq
    refine ⟨q :: qs, ?_, by simp [hlen]⟩
    simp only [numsOf, List.mapM_cons] at hqs ⊢
    rw [hqs]
    rfl

theorem stdV_num (l : Col) (h : ∀ x ∈ l, ∃ q : ℚ, x = Val.num q)
    (h2 : 2 ≤ l.length) : ∃ q, stdV l = Val.num q := by
  obtain ⟨qs, hqs, hlen⟩ := numsOf_all_num l h
  rw [stdV, hqs]
  rw [← hlen] at h2
  exact ⟨ratSqrt (svarQ qs), by simp [h2]⟩

theorem foldl_add_num (l : Col) (h : ∀ x ∈ l, ∃ q : ℚ, x = Val.num q) :
    ∀ a : ℚ, ∃ q, l.foldl Val.add (Val.num a) = Val.num q := by
  induction l with
  | nil => exact fun a => ⟨a, rfl⟩
  | cons x xs ih =>
    intro a
    obtain ⟨qx, hqx⟩ := h x (by simp)
    rw [List.foldl_cons, hqx, Val.add_num]
    exact ih (fun y hy => h y (by simp [hy])) (a + qx)

theorem meanV_num (l : Col) (h : ∀ x ∈ l, ∃ q : ℚ, x = Val.num q)
    (h1 : 1 ≤ l.length) : ∃ q, meanV l = Val.num q := by
  obtain ⟨q, hq⟩ := foldl_add_num l h 0
  rw [meanV, sumV, hq, Val.div_num]
  · exact ⟨_, rfl⟩
  · have : (0:ℚ) < l.length := by exact_mod_cast h1
    exact ne_of_gt this

/-- Convert a column dichotomy into the NaN-indicator value. -/
theorem spec_isNan (c : Col) (i k : Nat)
    (h : (i < k ∧ atIdx c i = Val.nan) ∨ (k ≤ i ∧ ∃ q, atIdx c i = Val.num q)) :
    (atIdx c i).isNan = decide (i < k) := by
  rcases h with ⟨h1, h2⟩ | ⟨h1, q, h2⟩
  · rw [h2]
    simp [Val.isNan, h1]
  · rw [h2]
    have : ¬ i < k := by omega
    simp [Val.isNan, this]

/-- `pct_change` of a positive series: NaN exactly at row 0. -/
theorem pctChange_spec (xs : Col) (hx : posNumList xs) (i : Nat) (hi : i < xs.length) :
    (i < 1 ∧ atIdx (pctChange xs) i = Val.nan)
    ∨ (1 ≤ i ∧ ∃ q, atIdx (pctChange xs) i = Val.num q) := by
  rw [pctChange, atIdx_seriesOfFn, if_pos hi]
  by_cases h0 : i = 0
  · exact Or.inl ⟨by omega, by simp [h0]⟩
  · right
    refine ⟨by omega, ?_⟩
    rw [if_neg h0]
    obtain ⟨a, ha, _⟩ := posNum_atIdx xs hx i hi
    obtain ⟨b, hb, hb0⟩ := posNum_atIdx xs hx (i - 1) (by omega)
    rw [ha, hb, Val.div_num _ _ (ne_of_gt hb0), Val.sub_num]
    exact ⟨_, rfl⟩

theorem length_pctChange (xs : Col) : (pctChange xs).length = xs.length := by
  simp [pctChange, length_seriesOfFn]

theorem length_rollingApply (w : Nat) (f : Col → Val) (xs : Col) :
    (rollingApply w f xs).length = xs.length := by
  simp [rollingApply, length_seriesOfFn]

theorem length_lift2 (f : Val → Val → Val) (xs ys : Col) :
    (lift2 f xs ys).length = xs.length := by
  simp [lift2, length_seriesOfFn]

/-- A realized-volatility column
(`returns.rolling(w).std() * sqrt(252) * 100`) over a positive raw
series: NaN exactly on the first `w` rows (the rolling window needs `w`
returns and return 0 is NaN). -/
theorem rv_spec (w : Nat) (hw : 2 ≤ w) (xs : Col) (hx : posNumList xs)
    (i : Nat) (hi : i < xs.length) :
    (i < w ∧ atIdx (scaleRV (rollingApply w stdV (pctChange xs))) i = Val.nan)
    ∨ (w ≤ i ∧ ∃ q, atIdx (scaleRV (rollingApply w stdV (pctChange xs))) i = Val.num q) := by
  have hlenP : (pctChange xs).length = xs.length := length_pctChange xs
  have hlenR : (rollingApply w stdV (pctChange xs)).length = xs.length := by
    rw [length_rollingApply, hlenP]
  rw [scaleRV, atIdx_map, hlenR, if_pos hi, atIdx_rollingApply, hlenP, if_pos hi]
  by_cases h1 : i + 1 < w
  · rw [if_pos h1]
    exact Or.inl ⟨by omega, rfl⟩
  · rw [if_neg h1]
    by_cases h2 : i < w
    · -- i + 1 = w: the window reaches row 0, whose return is NaN
      have h0w : atIdx (pctChange xs) 0 = Val.nan := by
        rw [pctChange, atIdx_seriesOfFn, if_pos (by omega : 0 < xs.length)]
        simp
      have hmem : Val.nan ∈ windowAt w (pctChange xs) i := by
        have hm := atIdx_mem_windowAt w (pctChange xs) i 0 (by omega) (by omega)
          (by rw [hlenP]; exact hi)
        rwa [h0w] at hm
      have hany : (windowAt w (pctChange xs) i).any Val.isNan = true :=
        List.any_eq_true.mpr ⟨Val.nan, hmem, rfl⟩
      rw [hany, if_pos rfl]
      exact Or.inl ⟨h2, rfl⟩
    · -- w ≤ i: every window row is a genuine return
      have hwi : w ≤ i := by omega
      have hnum : ∀ x ∈ windowAt w (pctChange xs) i, ∃ q : ℚ, x = Val.num q := by
        intro x hxm
        obtain ⟨j, hj1, hj2, hj3, hj4⟩ := windowAt_mem_spec w (pctChange xs) i x hxm
        rcases pctChange_spec xs hx j (by rw [← hlenP]; exact hj3) with ⟨hj0, _⟩ | ⟨_, q, hq⟩
        · omega
        · exact ⟨q, by rw [hj4, hq]⟩
      have hany : (windowAt w (pctChange xs) i).any Val.isNan = false := by
        rw [List.any_eq_false]
        intro x hxm
        obtain ⟨q, hq⟩ := hnum x hxm
        rw [hq]
        simp [Val.isNan]
      rw [hany]
      simp only [Bool.false_eq_true, if_false]
      obtain ⟨q, hq⟩ := stdV_num (windowAt w (pctChange xs) i) hnum
        (by rw [windowAt_length w (pctChange xs) i (by rw [hlenP]; exact hi) (by omega)]; exact hw)
      rw [hq, Val.mul_num, Val.mul_num]
      exact Or.inr ⟨hwi, _, rfl⟩

/-- The `Nikkei / SP500` ratio of positive series is a number on every
row. -/
theorem ratio_spec (n s : Col) (hn : posNumList n) (hs : posNumList s)
    (hns : n.length = s.length) (i : Nat) (hi : i < n.length) :
    ∃ q, atIdx (lift2 Val.div n s) i = Val.num q := by
  rw [atIdx_lift2, if_pos hi]
  obtain ⟨a, ha, _⟩ := posNum_atIdx n hn i hi
  obtain ⟨b, hb, hb0⟩ := posNum_atIdx s hs i (by omega)
  rw [ha, hb, Val.div_num _ _ (ne_of_gt hb0)]
  exact ⟨_, rfl⟩

/-- The 20-period rolling mean of the ratio: NaN exactly on the first 19
rows. -/
theorem ma20_spec (n s : Col) (hn : posNumList n) (hs : posNumList s)
    (hns : n.length = s.length) (i : Nat) (hi : i < n.length) :
    (i < 19 ∧ atIdx (rollingApply 20 meanV (lift2 Val.div n s)) i = Val.nan)
    ∨ (19 ≤ i ∧ ∃ q, atIdx (rollingApply 20 meanV (lift2 Val.div n s)) i = Val.num q) := by
  have hlenR : (lift2 Val.div n s).length = n.length := length_lift2 _ n s
  rw [atIdx_rollingApply, hlenR, if_pos hi]
  by_cases h1 : i + 1 < 20
  · rw [if_pos h1]
    exact Or.inl ⟨by omega, rfl⟩
  · rw [if_neg h1]
    have hnum : ∀ x ∈ windowAt 20 (lift2 Val.div n s) i, ∃ q : ℚ, x = Val.num q := by
      intro x hxm
      obtain ⟨j, hj1, hj2, hj3, hj4⟩ := windowAt_mem_spec 20 (lift2 Val.div n s) i x hxm
      obtain ⟨q, hq⟩ := ratio_spec n s hn hs hns j (by rw [← hlenR]; exact hj3)
      exact ⟨q, by rw [hj4, hq]⟩
    have hany : (windowAt 20 (lift2 Val.div n s) i).any Val.isNan = false := by
      rw [List.any_eq_false]
      intro x hxm
      obtain ⟨q, hq⟩ := hnum x hxm
      rw [hq]
      simp [Val.isNan]
    rw [hany]
    simp only [Bool.false_eq_true, if_false]
    obtain ⟨q, hq⟩ := meanV_num (windowAt 20 (lift2 Val.div n s) i) hnum
      (by rw [windowAt_length 20 (lift2 Val.div n s) i (by rw [hlenR]; exact hi) (by omega)]; omega)
    rw [hq]
    exact Or.inr ⟨by omega, _, rfl⟩

/-- The `VIX - RV20` spread column: NaN exactly on the first 20 rows. -/
theorem spread_spec (v n : Col) (hv : posNumList v) (hn : posNumList n)
    (hvn : v.length = n.length) (i : Nat) (hi : i < v.length) :
    (i < 20 ∧ atIdx (lift2 Val.sub v (scaleRV (rollingApply 20 stdV (pctChange n)))) i = Val.nan)
    ∨ (20 ≤ i ∧
        ∃ q, atIdx (lift2 Val.sub v (scaleRV (rollingApply 20 stdV (pctChange n)))) i = Val.num q) := by
  rw [atIdx_lift2, if_pos hi]
  obtain ⟨a, ha, _⟩ := posNum_atIdx v hv i hi
  rcases rv_spec 20 (by norm_num) n hn i (by omega) with ⟨h20, hnan⟩ | ⟨h20, q, hq⟩
  · rw [ha, hnan]
    exact Or.inl ⟨h20, rfl⟩
  · rw [ha, hq, Val.sub_num]
    exact Or.inr ⟨h20, _, rfl⟩

/-- The ratio-deviation column: NaN exactly on the first 19 rows. -/
theorem dev_spec (n s : Col) (hn : posNumList n) (hs : posNumList s)
    (hns : n.length = s.length) (i : Nat) (hi : i < n.length) :
    (i < 19 ∧ atIdx (lift2 Val.sub (lift2 Val.div n s)
        (rollingApply 20 meanV (lift2 Val.div n s))) i = Val.nan)
    ∨ (19 ≤ i ∧ ∃ q, atIdx (lift2 Val.sub (lift2 Val.div n s)
        (rollingApply 20 meanV (lift2 Val.div n s))) i = Val.num q) := by
  rw [atIdx_lift2, length_lift2, if_pos hi]
  obtain ⟨a, ha⟩ := ratio_spec n s hn hs hns i hi
  rcases ma20_spec n s hn hs hns i hi with ⟨h19, hnan⟩ | ⟨h19, q, hq⟩
  · rw [ha, hnan]
    exact Or.inl ⟨h19, rfl⟩
  · rw [ha, hq, Val.sub_num]
    exact Or.inr ⟨h19, _, rfl⟩

/-- On fully positive raw input, a row of the pre-`dropna` working table
contains a NaN exactly when it lacks 20 prior periods. -/
theorem rowHasNan_preTable (v n s : Col) (L : Nat)
    (hvL : v.length = L) (hnL : n.length = L) (hsL : s.length = L)
    (hv : posNumList v) (hn : posNumList n) (hs : posNumList s)
    (i : Nat) (hi : i < L) :
    rowHasNan (preTable v n s) i = decide (i < 20) := by
  obtain ⟨a1, ha1, _⟩ := posNum_atIdx v hv i (by omega)
  obtain ⟨a2, ha2, _⟩ := posNum_atIdx n hn i (by omega)
  obtain ⟨a3, ha3, _⟩ := posNum_atIdx s hs i (by omega)
  have e1 : (atIdx v i).isNan = false := by rw [ha1]; rfl
  have e2 : (atIdx n i).isNan = false := by rw [ha2]; rfl
  have e3 : (atIdx s i).isNan = false := by rw [ha3]; rfl
  have e4 : (atIdx (pctChange n) i).isNan = decide (i < 1) :=
    spec_isNan _ i 1 (pctChange_spec n hn i (by omega))
  have e5 : (atIdx (pctChange s) i).isNan = decide (i < 1) :=
    spec_isNan _ i 1 (pctChange_spec s hs i (by omega))
  have e6 : (atIdx (pctChange v) i).isNan = decide (i < 1) :=
    spec_isNan _ i 1 (pctChange_spec v hv i (by omega))
  have e7 : (atIdx (scaleRV (rollingApply 5 stdV (pctChange n))) i).isNan = decide (i < 5) :=
    spec_isNan _ i 5 (rv_spec 5 (by norm_num) n hn i (by omega))
  have e8 : (atIdx (scaleRV (rollingApply 20 stdV (pctChange n))) i).isNan = decide (i < 20) :=
    spec_isNan _ i 20 (rv_spec 20 (by norm_num) n hn i (by omega))
  have e9 : (atIdx (lift2 Val.sub v (scaleRV (rollingApply 20 stdV (pctChange n)))) i).isNan
      = decide (i < 20) :=
    spec_isNan _ i 20 (spread_spec v n hv hn (by omega) i (by omega))
  have e10 : (atIdx (lift2 Val.div n s) i).isNan = false := by
    obtain ⟨q, hq⟩ := ratio_spec n s hn hs (by omega) i (by omega)
    rw [hq]
    rfl
  have e11 : (atIdx (rollingApply 20 meanV (lift2 Val.div n s)) i).isNan = decide (i < 19) :=
    spec_isNan _ i 19 (ma20_spec n s hn hs (by omega) i (by omega))
  have e12 : (atIdx (lift2 Val.sub (lift2 Val.div n s)
      (rollingApply 20 meanV (lift2 Val.div n s))) i).isNan = decide (i < 19) :=
    spec_isNan _ i 19 (dev_spec n s hn hs (by omega) i (by omega))
  simp only [rowHasNan, preTable, List.any_cons, List.any_nil,
    e1, e2, e3, e4, e5, e6, e7, e8, e9, e10, e11, e12]
  apply Bool.eq_iff_iff.mpr
  simp only [Bool.or_eq_true, decide_eq_true_eq, Bool.false_eq_true, false_or, or_false]
  omega

/-- The rows `dropna` keeps on a fully positive 25-row raw input. -/
theorem keptRows_preTable_25 (v n s : Col)
    (hvL : v.length = 25) (hnL : n.length = 25) (hsL : s.length = 25)
    (hv : posNumList v) (hn : posNumList n) (hs : posNumList s) :
    keptRows (preTable v n s) = [20, 21, 22, 23, 24] := by
  have hr : nRows (preTable v n s) = 25 := by
    rw [show nRows (preTable v n s) = v.length from rfl, hvL]
  have hcong : ∀ i ∈ List.range 25, (!rowHasNan (preTable v n s) i) = (!decide (i < 20)) := by
    intro i hi
    rw [rowHasNan_preTable v n s 25 hvL hnL hsL hv hn hs i (List.mem_range.mp hi)]
  unfold keptRows
  rw [hr, List.filter_congr hcong]
  rfl

/-!  ### C6  -/

/-- C6: rows whose 20-period trailing-window indicators are undefined are
dropped before downstream computation: on a raw input of 25 rows with
all values defined and positive, `download_data` returns the table and
exactly the 5 rows at 0-based indices 20-24 survive. -/
theorem C6_window_trim (v n s : Col)
    (hvL : v.length = 25) (hnL : n.length = 25) (hsL : s.length = 25)
    (hv : posNumList v) (hn : posNumList n) (hs : posNumList s) :
    download_data v n s = some (dropna (preTable v n s))
    ∧ keptRows (preTable v n s) = [20, 21, 22, 23, 24]
    ∧ nRows (dropna (preTable v n s)) = 5 := by
  have hkept := keptRows_preTable_25 v n s hvL hnL hsL hv hn hs
  refine ⟨?_, hkept, ?_⟩
  · have hve : v.isEmpty = false := by
      cases v
      · simp at hvL
      · rfl
    have hne : n.isEmpty = false := by
      cases n
      · simp at hnL
      · rfl
    have hse : s.isEmpty = false := by
      cases s
      · simp at hsL
      · rfl
    simp [download_data, hve, hne, hse]
  · have hfirst : nRows (dropna (preTable v n s)) = (keptRows (preTable v n s)).length := by
      simp [dropna, nRows, preTable]
    rw [hfirst, hkept]
    rfl

/-- The constant positive 25-row raw series used as the C6 witness. -/
def c6col : Col := List.replicate 25 (Val.num 1)

theorem c6col_pos : posNumList c6col := by
  intro v hv
  rw [List.eq_of_mem_replicate hv]
  exact ⟨1, rfl, by norm_num⟩

/-- Witness for C6 at the concrete 25-row constant input. -/
theorem C6_witness : keptRows (preTable c6col c6col c6col) = [20, 21, 22, 23, 24] :=
  (C6_window_trim c6col c6col c6col rfl rfl rfl c6col_pos c6col_pos c6col_pos).2.1

/-!  ### C7  -/

/-- 45-row raw input: VIX constant 20. -/
def cVix : Col := List.replicate 45 (Val.num 20)

/-- 45-row raw input: Nikkei constant 100. -/
def cNik : Col := List.replicate 45 (Val.num 100)

/-- 45-row raw input: SP500 constant 50 except a negative value -1 at
0-based index 25 — a non-positive raw value at a position where the
`Nikkei / SP500` ratio is computed. -/
def cSp : Col := (List.range 45).map (fun i => if i = 25 then Val.num (-1) else Val.num 50)

/-- C7 counterexample: the claim says a row with a non-positive raw value
at a ratio/return position is treated as missing and excluded from the
working table.  The code does no such thing: with `SP500 = -1` at index
25 the ratio is the finite value `-100`, no NaN arises, row 25 survives
`dropna` (it is the 6th kept row, position 5), and the negative value
propagates into the returned working table. -/
theorem C7_counterexample :
    atIdx cSp 25 = Val.num (-1)
    ∧ ((-1 : ℚ) ≤ 0)
    ∧ 25 ∈ keptRows (preTable cVix cNik cSp)
    ∧ (download_data cVix cNik cSp).map (fun T => cellAt T "Nikkei_SP500_Ratio" 5)
        = some (Val.num (-100)) := by
  refine ⟨by with_unfolding_all rfl, by norm_num, ?_, by with_unfolding_all rfl⟩
  have h : keptRows (preTable cVix cNik cSp) =
      [20, 21, 22, 23, 24, 25, 26, 27, 28, 29, 30, 31, 32, 33, 34,
       35, 36, 37, 38, 39, 40, 41, 42, 43, 44] := by with_unfolding_all rfl
  rw [h]
  decide

/-- C7 (amended): a non-positive raw value does not cause its row to be
excluded: returns and ratios are computed arithmetically (a negative
denominator yields a finite negative value), and `dropna` removes
exactly the rows in which some derived column is NaN — on the 45-row
input with `SP500 = -1` at index 25 those are precisely the first 20
trailing-window rows, so rows 20-44 (including row 25, whose ratio
`-100` remains in the table) survive. -/
theorem C7_nonpositive_rows_kept :
    keptRows (preTable cVix cNik cSp) =
      [20, 21, 22, 23, 24, 25, 26, 27, 28, 29, 30, 31, 32, 33, 34,
       35, 36, 37, 38, 39, 40, 41, 42, 43, 44]
    ∧ (∀ i, i ∈ keptRows (preTable cVix cNik cSp)
        ↔ (i < nRows (preTable cVix cNik cSp)
            ∧ rowHasNan (preTable cVix cNik cSp) i = false))
    ∧ (download_data cVix cNik cSp).map nRows = some 25 := by
  refine ⟨by with_unfolding_all rfl, ?_, by with_unfolding_all rfl⟩
  intro i
  simp [keptRows, List.mem_filter, List.mem_range]
